import Mathlib

/-!
Shallow embedding of the story-selection and lifecycle engine of the
ralph-cli repository (src/tools/lib): the data model (types.ts), the
scheduler (findNextStory and its helpers in prd-utils.ts), the lifecycle
operations (mark-complete.ts, block-story.ts, record-failure.ts), the
completion aggregate (is-complete.ts) and the atomic file-write sequence
(writePrdFile in prd-utils.ts).  File-system reads are represented by
passing the already-loaded documents; an `Option PrdDocument` archive
argument stands for the result of attempting to read the archive file
(`none` means the read failed or the file is absent, which the source
treats uniformly via try/catch).
-/

namespace Ralph

/-- Priority levels of a story, from `types.ts` (`type Priority`). -/
inductive Priority where
  | critical
  | high
  | medium
  | low
deriving DecidableEq

/-- A story, from `types.ts` (`interface Story`).  Optional TS fields are
`Option`s; `passes` is the completion flag (the spec calls it `completed`). -/
structure Story where
  id : String
  title : String := ""
  description : String := ""
  priority : Priority
  passes : Bool
  blocked : Option Bool := none
  blockedAt : Option String := none
  completedAt : Option String := none
  info : Option String := none
  info2 : Option String := none
  acceptanceCriteria : List String := []
  dependencies : List String := []
  attempts : Option (List String) := none
deriving DecidableEq

/-- A PRD document, from `types.ts` (`interface PrdDocument`). -/
structure PrdDocument where
  project : Option String := none
  description : Option String := none
  stories : List Story
deriving DecidableEq

/-- JavaScript truthiness of an optional string (`o || d`): `undefined` and
the empty string are falsy. -/
def strOr (o : Option String) (d : String) : String :=
  match o with
  | some s => if s == "" then d else s
  | none => d

/-- `findStoryById` from `prd-utils.ts`: first story whose `id` matches. -/
def findStoryById (prd : PrdDocument) (storyId : String) : Option Story :=
  prd.stories.find? (fun s => s.id == storyId)

/-- Index of the first element satisfying `p`.  Models JavaScript
`Array.prototype.findIndex`, whose -1 result is rendered as `none`. -/
def listFindIndex (p : Story → Bool) : List Story → Option Nat
  | [] => none
  | s :: rest => if p s then some 0 else (listFindIndex p rest).map (fun i => i + 1)

/-- `findStoryIndexById` from `prd-utils.ts` (`findIndex`; -1 becomes `none`). -/
def findStoryIndexById (prd : PrdDocument) (storyId : String) : Option Nat :=
  listFindIndex (fun s => s.id == storyId) prd.stories

/-- `PRIORITY_ORDER` from the find-next module: critical 0, high 1,
medium 2, low 3. -/
def PRIORITY_ORDER : Priority → Nat
  | .critical => 0
  | .high => 1
  | .medium => 2
  | .low => 3

/-- `isStoryInArchive` from the find-next module: the archive argument is the
result of resolving and reading the archive file (`none` when absent or
unreadable, in which case the source returns `false`). -/
def isStoryInArchive (archive : Option PrdDocument) (storyId : String) : Bool :=
  match archive with
  | none => false
  | some archivePrd =>
    match findStoryById archivePrd storyId with
    | some archivedStory => archivedStory.passes
    | none => false

/-- Body of the dependency loop in `areDependenciesSatisfied`: a single
dependency id is satisfied when the active document holds a completed story
with that id, or, when absent from active, the archive does. -/
def depSatisfied (prd : PrdDocument) (archive : Option PrdDocument) (depId : String) : Bool :=
  match findStoryById prd depId with
  | some depStory => depStory.passes
  | none => isStoryInArchive archive depId

/-- `areDependenciesSatisfied` from the find-next module: every dependency id
must be satisfied; the empty list is trivially satisfied; a missing id is a
normal `false`, never an error. -/
def areDependenciesSatisfied (story : Story) (prd : PrdDocument)
    (archive : Option PrdDocument) : Bool :=
  story.dependencies.all (depSatisfied prd archive)

/-- The candidate filter of `findNextStory`: not completed, not blocked,
dependencies satisfied (the source skips stories failing each test in turn). -/
def candidateStories (prd : PrdDocument) (archive : Option PrdDocument) : List Story :=
  prd.stories.filter (fun s =>
    !s.passes && !(s.blocked.getD false) && areDependenciesSatisfied s prd archive)

/-- The comparator `(a, b) => PRIORITY_ORDER[a.priority] - PRIORITY_ORDER[b.priority]`
passed to the stable `Array.prototype.sort`, as a boolean `le`. -/
def storyLE (a b : Story) : Bool :=
  PRIORITY_ORDER a.priority ≤ PRIORITY_ORDER b.priority

/-- Result of `findNextStory`: either an available story enriched with its
attempt count and previous attempts, or the structured unavailable
diagnostics (the counts the source embeds in its JSON reply). -/
inductive FindNextResult where
  | available (story : Story) (attemptCount : Nat) (previousAttempts : List String)
  | unavailable (totalStories completedStories blockedStories : Nat)
      (incompleteStories : Int) (waitingOnDeps : Nat)
deriving DecidableEq

/-- `findNextStory` from the find-next module, over already-loaded documents:
filter candidates, stable-sort by priority rank, return the first; when no
candidate exists, return the diagnostic counts computed by the source. -/
def findNextStory (prd : PrdDocument) (archive : Option PrdDocument) : FindNextResult :=
  let totalStories := prd.stories.length
  let completedStories := (prd.stories.filter (fun s => s.passes)).length
  let blockedStories := (prd.stories.filter (fun s => s.blocked.getD false)).length
  match (candidateStories prd archive).mergeSort storyLE with
  | [] =>
    let incompleteCount : Int :=
      (totalStories : Int) - completedStories - blockedStories
    let waitingOnDeps :=
      (prd.stories.filter (fun s =>
        !s.passes && !(s.blocked.getD false) &&
          !(areDependenciesSatisfied s prd archive))).length
    .unavailable totalStories completedStories blockedStories incompleteCount waitingOnDeps
  | story :: _ =>
    let attempts := story.attempts.getD []
    .available story attempts.length attempts

/-- Result of `checkIsComplete` (`is-complete.ts`), with the same fields as
the JSON object the source serialises. -/
structure IsCompleteResult where
  complete : Bool
  totalStories : Nat
  completedStories : Nat
  blockedStories : Nat
  remainingStories : Int
  summary : String
  result : String
deriving DecidableEq

/-- `checkIsComplete` from `is-complete.ts`, over the already-loaded active
document: complete iff every story passes, with the diagnostic counts
(`remainingStories = total - completed - blocked`). -/
def checkIsComplete (prd : PrdDocument) : IsCompleteResult :=
  let totalStories := prd.stories.length
  let completedStories := (prd.stories.filter (fun s => s.passes == true)).length
  let blockedStories := (prd.stories.filter (fun s => s.blocked.getD false == true)).length
  let remainingStories : Int :=
    (totalStories : Int) - completedStories - blockedStories
  let allComplete := prd.stories.all (fun s => s.passes == true)
  let base := toString completedStories ++ " of " ++ toString totalStories ++ " stories complete"
  let parts :=
    (if blockedStories > 0 then [toString blockedStories ++ " blocked"] else []) ++
    (if remainingStories > 0 then [toString remainingStories ++ " remaining"] else [])
  let summary :=
    if blockedStories > 0 || remainingStories > 0 then
      base ++ " (" ++ String.intercalate ", " parts ++ ")"
    else base
  { complete := allComplete
    totalStories := totalStories
    completedStories := completedStories
    blockedStories := blockedStories
    remainingStories := remainingStories
    summary := summary
    result := if allComplete then "yes" else "no" }

/-- Inputs to `resolveArchiveFile` (`prd-utils.ts`): the explicit
`archiveFile` option, the `RALPH_PRD_FILE_ARCHIVE` environment variable, and
whether `archive.prd.json` exists in the working directory. -/
structure ArchiveConfig where
  explicitArchive : Option String := none
  envArchive : Option String := none
  defaultArchiveExists : Bool := false
deriving DecidableEq

/-- `resolveArchiveFile` from `prd-utils.ts` with its default
`throwOnNotFound = false`: an explicit option or the environment variable
yields that path whether or not the file exists; otherwise
`archive.prd.json` only if it exists; otherwise `none` (no archive
workflow). -/
def resolveArchiveFile (cfg : ArchiveConfig) : Option String :=
  match cfg.explicitArchive with
  | some f => some f
  | none =>
    match cfg.envArchive with
    | some f => some f
    | none => if cfg.defaultArchiveExists then some "archive.prd.json" else none

/-- Which of the two PRD files a `writePrdFile` call targets. -/
inductive WriteTarget where
  | active
  | archive
deriving DecidableEq

/-- Error raised by the lifecycle operations when the story id is absent
from the active document (`Story not found`). -/
inductive OpError where
  | notFound (storyId : String)
deriving DecidableEq

/-- Result of `markStoryComplete`: the archive workflow records the two
documents and the ordered `writePrdFile` calls it issues; the in-place
workflow records the rewritten active document. -/
inductive MarkResult where
  | archived (newActive newArchive : PrdDocument)
      (writes : List (WriteTarget × PrdDocument)) (message : String)
  | inPlace (newActive : PrdDocument) (message : String)
deriving DecidableEq

/-- `moveStoryToArchive` from `mark-complete.ts`: read-or-create the archive,
set `passes` and `completedAt` on the story, append it to the archive,
splice it out of the active list, then issue the two writes in source
order — the ACTIVE file first (line 127), the archive file second
(line 128). -/
def moveStoryToArchive (now : String) (prd : PrdDocument) (archiveDoc : Option PrdDocument)
    (storyIndex : Nat) (story : Story) (storyId : String) : MarkResult :=
  let archive :=
    match archiveDoc with
    | some a => a
    | none =>
      { project := some (strOr prd.project "Archived Stories")
        description := some (strOr prd.description "Completed stories archive")
        stories := [] }
  let story := { story with passes := true, completedAt := some now }
  let newArchive := { archive with stories := archive.stories ++ [story] }
  let newActive := { prd with stories := prd.stories.eraseIdx storyIndex }
  .archived newActive newArchive [(.active, newActive), (.archive, newArchive)]
    ("Successfully moved story " ++ storyId ++ " to archive")

/-- `markStoryInPlace` from `mark-complete.ts`: set `passes` and
`completedAt` on the story inside the active list and rewrite it. -/
def markStoryInPlace (now : String) (prd : PrdDocument) (storyIndex : Nat)
    (story : Story) (storyId : String) : MarkResult :=
  let story := { story with passes := true, completedAt := some now }
  let newActive := { prd with stories := prd.stories.set storyIndex story }
  .inPlace newActive ("Successfully marked story " ++ storyId ++ " as complete in place")

/-- `markStoryComplete` from `mark-complete.ts`: locate the story by id
(error when absent), then archive workflow when `resolveArchiveFile` yields
a path, in-place workflow otherwise.  The `get?` branch returning an error
is unreachable: `findStoryIndexById` only returns in-range indices. -/
def markStoryComplete (now : String) (prd : PrdDocument) (archiveDoc : Option PrdDocument)
    (cfg : ArchiveConfig) (storyId : String) : Except OpError MarkResult :=
  match findStoryIndexById prd storyId with
  | none => .error (.notFound storyId)
  | some storyIndex =>
    match prd.stories.get? storyIndex with
    | none => .error (.notFound storyId)
    | some story =>
      match resolveArchiveFile cfg with
      | some _ => .ok (moveStoryToArchive now prd archiveDoc storyIndex story storyId)
      | none => .ok (markStoryInPlace now prd storyIndex story storyId)

/-- `recordStoryFailure` from `record-failure.ts`: locate the story (error
when absent), initialise `attempts` when absent, append the context file
path, rewrite, and report the new attempt count. -/
def recordStoryFailure (prd : PrdDocument) (storyId contextFilePath : String) :
    Except OpError (PrdDocument × Nat) :=
  match findStoryIndexById prd storyId with
  | none => .error (.notFound storyId)
  | some i =>
    match prd.stories.get? i with
    | none => .error (.notFound storyId)
    | some story =>
      let attempts := story.attempts.getD [] ++ [contextFilePath]
      let story := { story with attempts := some attempts }
      .ok ({ prd with stories := prd.stories.set i story }, attempts.length)

/-- `blockStory` from `block-story.ts`: locate the story (error when
absent), set `blocked` and refresh `blockedAt`, rewrite. -/
def blockStory (now : String) (prd : PrdDocument) (storyId : String) :
    Except OpError PrdDocument :=
  match findStoryIndexById prd storyId with
  | none => .error (.notFound storyId)
  | some i =>
    match prd.stories.get? i with
    | none => .error (.notFound storyId)
    | some story =>
      let story := { story with blocked := some true, blockedAt := some now }
      .ok { prd with stories := prd.stories.set i story }

/-- The persisted pair of PRD files (`none` archive: file absent). -/
structure PersistedPair where
  activeFile : PrdDocument
  archiveFile : Option PrdDocument
deriving DecidableEq

/-- Apply one persisted `writePrdFile` call to the pair of files. -/
def applyWrite (st : PersistedPair) (w : WriteTarget × PrdDocument) : PersistedPair :=
  match w.1 with
  | .active => { st with activeFile := w.2 }
  | .archive => { st with archiveFile := some w.2 }

/-- Apply a prefix of the write sequence, modelling an operation that stops
between persisted writes. -/
def applyWrites (st : PersistedPair) (ws : List (WriteTarget × PrdDocument)) : PersistedPair :=
  ws.foldl applyWrite st

/-- State of the file system around one target of `writePrdFile`
(`prd-utils.ts`): the content at the target path and at the adjacent
temporary path `target.tmp`. -/
structure FsState where
  target : Option String
  temp : Option String
deriving DecidableEq

/-- Injected failure point for a `writePrdFile` run: the temp-file write or
the rename may fail. -/
inductive WriteFailure where
  | writeTempFail
  | renameFail
deriving DecidableEq

/-- The `fs.writeFile(tempPath, ...)` step: on success the temp path holds
the new content; on the injected failure the file system is unchanged. -/
def writeTempStep (fs : FsState) (content : String) (fail : Option WriteFailure) :
    Option FsState :=
  match fail with
  | some .writeTempFail => none
  | _ => some { fs with temp := some content }

/-- The `fs.rename(tempPath, prdPath)` step: a single operation that moves
the temp content onto the target; on the injected failure nothing changes. -/
def renameStep (fs : FsState) (fail : Option WriteFailure) : Option FsState :=
  match fail with
  | some .renameFail => none
  | _ => some { target := fs.temp, temp := none }

/-- The `fs.unlink(tempPath)` cleanup in the catch block. -/
def cleanupTemp (fs : FsState) : FsState :=
  { fs with temp := none }

/-- `writePrdFile` from `prd-utils.ts` over the file-system model: write the
temp file, rename it into place; on any failure unlink the temp file and
raise the persist error.  Returns the final file system and the error, if
any. -/
def writePrdFileFs (fs : FsState) (content : String) (fail : Option WriteFailure) :
    FsState × Option String :=
  match writeTempStep fs content fail with
  | none => (cleanupTemp fs, some "Failed to write PRD file")
  | some fs1 =>
    match renameStep fs1 fail with
    | none => (cleanupTemp fs1, some "Failed to write PRD file")
    | some fs2 => (fs2, none)

/-- Every file-system state a `writePrdFile` run passes through after the
initial one, in order. -/
def writeStates (fs : FsState) (content : String) (fail : Option WriteFailure) :
    List FsState :=
  match writeTempStep fs content fail with
  | none => [cleanupTemp fs]
  | some fs1 =>
    match renameStep fs1 fail with
    | none => [fs1, cleanupTemp fs1]
    | some fs2 => [fs1, fs2]

/-- The stories of an optional archive document (absent file: no stories). -/
def archiveStories (archive : Option PrdDocument) : List Story :=
  match archive with
  | none => []
  | some a => a.stories

/-- Formalisation of the words of the dependency claim: every dependency id
names a story, present in the active or the archive collection, whose
completion flag is true. -/
def specDependenciesSatisfied (story : Story) (prd : PrdDocument)
    (archive : Option PrdDocument) : Bool :=
  story.dependencies.all (fun depId =>
    (prd.stories ++ archiveStories archive).any (fun s => s.id == depId && s.passes))

/-- A completed story of the concrete selection example. -/
def w1Done : Story := { id := "s0", priority := .critical, passes := true }

/-- A blocked story of the concrete selection example. -/
def w1Blocked : Story := { id := "s2", priority := .critical, passes := false, blocked := some true }

/-- The eligible story of the concrete selection example. -/
def w1Open : Story := { id := "s1", priority := .high, passes := false }

/-- A concrete active document with one completed, one blocked and one
eligible story. -/
def w1Prd : PrdDocument := { stories := [w1Done, w1Blocked, w1Open] }

/-- A medium-priority candidate listed first in the concrete tie example. -/
def w2M : Story := { id := "m", priority := .medium, passes := false }

/-- The first critical candidate of the concrete tie example. -/
def w2A : Story := { id := "a", priority := .critical, passes := false }

/-- The second critical candidate of the concrete tie example. -/
def w2B : Story := { id := "b", priority := .critical, passes := false }

/-- A concrete active document with candidates {medium, critical, critical}. -/
def w2Prd : PrdDocument := { stories := [w2M, w2A, w2B] }

/-- The story of the C3 counterexample: one dependency `d`. -/
def w3Story : Story := { id := "x", priority := .high, passes := false, dependencies := ["d"] }

/-- The incomplete story `d` sitting in the active collection. -/
def w3DepActive : Story := { id := "d", priority := .low, passes := false }

/-- A completed story that also carries id `d`, sitting in the archive. -/
def w3DepArchived : Story := { id := "d", priority := .low, passes := true }

/-- Active document of the C3 counterexample. -/
def w3Prd : PrdDocument := { stories := [w3Story, w3DepActive] }

/-- Archive document of the C3 counterexample. -/
def w3Archive : PrdDocument := { stories := [w3DepArchived] }

/-- The single eligible story used by the concrete lifecycle runs. -/
def lcStory : Story := { id := "s1", priority := .high, passes := false }

/-- The concrete active document holding only `s1`. -/
def lcActive : PrdDocument := { stories := [lcStory] }

/-- An archive configuration with an explicit archive file (archive
workflow enabled; the file does not exist yet, so the read yields `none`). -/
def lcCfg : ArchiveConfig := { explicitArchive := some "archive.prd.json" }

/-- The concrete `markStoryComplete` run that archives `s1`. -/
def lcRun : Except OpError MarkResult :=
  markStoryComplete "2026-01-01T00:00:00.000Z" lcActive none lcCfg "s1"

/-- The active document persisted by the concrete run. -/
def lcActiveAfter : PrdDocument :=
  match lcRun with
  | .ok (.archived a _ _ _) => a
  | _ => { stories := [] }

/-- The archive document persisted by the concrete run. -/
def lcArchiveAfter : PrdDocument :=
  match lcRun with
  | .ok (.archived _ ar _ _) => ar
  | _ => { stories := [] }

/-- The ordered `writePrdFile` calls issued by the concrete run. -/
def lcWrites : List (WriteTarget × PrdDocument) :=
  match lcRun with
  | .ok (.archived _ _ ws _) => ws
  | _ => []

/-- A completed story of the C6 scenario. -/
def w6A : Story := { id := "a", priority := .high, passes := true }

/-- Another completed story of the C6 scenario. -/
def w6B : Story := { id := "b", priority := .high, passes := true }

/-- The blocked, not completed story of the C6 scenario. -/
def w6C : Story := { id := "c", priority := .high, passes := false, blocked := some true }

/-- The C6 scenario document: 3 stories, 2 completed, 1 blocked. -/
def w6Prd : PrdDocument := { stories := [w6A, w6B, w6C] }

/-- A story already completed and blocked, with one prior attempt, for the
C10 witness. -/
def w10Story : Story := { id := "s9", priority := .low, passes := true, blocked := some true, attempts := some ["a1"] }

/-- The C10 witness document. -/
def w10Prd : PrdDocument := { stories := [w10Story] }

/-- A successful `listFindIndex` yields the first index whose element
satisfies the predicate. -/
theorem listFindIndex_spec (p : Story → Bool) :
    ∀ (l : List Story) (i : Nat), listFindIndex p l = some i →
      ∃ x, l.get? i = some x ∧ p x = true ∧
        ∀ j, j < i → ∀ y, l.get? j = some y → p y = false := by
  intro l
  induction l with
  | nil => intro i h; simp [listFindIndex] at h
  | cons a t ih =>
    intro i h
    by_cases hp : p a
    · simp [listFindIndex, hp] at h
      subst h
      exact ⟨a, rfl, hp, by intro j hj; omega⟩
    · simp [listFindIndex, hp, Option.map_eq_some'] at h
      obtain ⟨i', hi', rfl⟩ := h
      obtain ⟨x, hx, hpx, hmin⟩ := ih i' hi'
      refine ⟨x, by simpa using hx, hpx, ?_⟩
      intro j hj y hy
      cases j with
      | zero =>
        simp at hy
        subst hy
        simpa using hp
      | succ j' =>
        exact hmin j' (by omega) y (by simpa using hy)

/-- A failing `listFindIndex` means no element satisfies the predicate. -/
theorem listFindIndex_eq_none (p : Story → Bool) :
    ∀ (l : List Story), listFindIndex p l = none ↔ ∀ x ∈ l, p x = false := by
  intro l
  induction l with
  | nil => simp [listFindIndex]
  | cons a t ih =>
    simp only [listFindIndex]
    by_cases hp : p a
    · simp [hp]
    · have hp' : p a = false := by simpa using hp
      simp [hp', ih, Option.map_eq_none']

/-- The priority comparator is transitive. -/
theorem storyLE_trans :
    ∀ a b c : Story, storyLE a b = true → storyLE b c = true → storyLE a c = true := by
  intro a b c hab hbc
  simp only [storyLE, decide_eq_true_eq] at *
  omega

/-- The priority comparator is total. -/
theorem storyLE_total : ∀ a b : Story, (storyLE a b || storyLE b a) = true := by
  intro a b
  simp only [storyLE, Bool.or_eq_true, decide_eq_true_eq]
  omega

/-- Head of the stable sort used by the scheduler: the first element of the
sorted candidate list is the first element of the original list achieving
the minimal priority rank (every earlier original element has a strictly
greater rank, every element has a greater-or-equal rank). -/
theorem mergeSort_storyLE_head :
    ∀ (l : List Story), l ≠ [] →
      ∃ x l₁ l₂, (l.mergeSort storyLE).head? = some x ∧
        l = l₁ ++ x :: l₂ ∧
        (∀ b ∈ l₁, PRIORITY_ORDER x.priority < PRIORITY_ORDER b.priority) ∧
        (∀ c ∈ l, PRIORITY_ORDER x.priority ≤ PRIORITY_ORDER c.priority) := by
  intro l
  induction l with
  | nil => intro h; exact absurd rfl h
  | cons a t ih =>
    intro _
    obtain ⟨m₁, m₂, h₁, h₂, h₃⟩ := List.mergeSort_cons storyLE_trans storyLE_total a t
    cases m₁ with
    | nil =>
      refine ⟨a, [], t, by rw [h₁]; rfl, rfl, by simp, ?_⟩
      have hs := List.sorted_mergeSort storyLE_trans storyLE_total (a :: t)
      rw [h₁] at hs
      simp only [List.nil_append] at hs h₂
      have hrel := (List.pairwise_cons.mp hs).1
      intro c hc
      rcases List.mem_cons.mp hc with rfl | hct
      · exact Nat.le_refl _
      · have hcm : c ∈ t.mergeSort storyLE := ((t.mergeSort_perm storyLE).mem_iff).mpr hct
        rw [h₂] at hcm
        have := hrel c hcm
        simpa [storyLE, decide_eq_true_eq] using this
    | cons y t₁ =>
      have ht : t ≠ [] := by
        intro h0
        subst h0
        simp [List.mergeSort_nil] at h₂
      obtain ⟨x, l₁, l₂, hhead, hsplit, hstrict, hmin⟩ := ih ht
      have hx : y = x := by
        rw [h₂] at hhead
        simpa using hhead
      subst hx
      have hlt : PRIORITY_ORDER y.priority < PRIORITY_ORDER a.priority := by
        have := h₃ y (by simp)
        simpa [storyLE, decide_eq_true_eq] using this
      refine ⟨y, a :: l₁, l₂, ?_, by rw [hsplit]; rfl, ?_, ?_⟩
      · rw [h₁]; rfl
      · intro b hb
        rcases List.mem_cons.mp hb with rfl | hb₁
        · exact hlt
        · exact hstrict b hb₁
      · intro c hc
        rcases List.mem_cons.mp hc with rfl | hct
        · exact Nat.le_of_lt hlt
        · exact hmin c hct

/-- A story returned as available by the scheduler is one of the filtered
candidates. -/
theorem findNextStory_available_mem {prd : PrdDocument} {archive : Option PrdDocument}
    {s : Story} {n : Nat} {atts : List String}
    (h : findNextStory prd archive = .available s n atts) :
    s ∈ candidateStories prd archive := by
  unfold findNextStory at h
  cases hm : (candidateStories prd archive).mergeSort storyLE with
  | nil => rw [hm] at h; simp at h
  | cons st rest =>
    rw [hm] at h
    simp only [FindNextResult.available.injEq] at h
    have hmem : st ∈ (candidateStories prd archive).mergeSort storyLE := by
      rw [hm]; exact List.mem_cons_self _ _
    have hmem' := ((candidateStories prd archive).mergeSort_perm storyLE).mem_iff.mp hmem
    rwa [h.1] at hmem'

/-- Claim C1: whenever `findNextStory` returns an available story, that
story has `passes = false` (the spec's `completed == false`) and is not
blocked; a story whose completion flag is true is never selected. -/
theorem c1_scheduler_never_returns_completed_or_blocked
    (prd : PrdDocument) (archive : Option PrdDocument)
    (s : Story) (n : Nat) (atts : List String)
    (h : findNextStory prd archive = .available s n atts) :
    s.passes = false ∧ s.blocked.getD false = false := by
  have hmem := findNextStory_available_mem h
  simp only [candidateStories, List.mem_filter] at hmem
  have hcond := hmem.2
  simp only [Bool.and_eq_true, Bool.not_eq_true'] at hcond
  exact ⟨hcond.1.1, hcond.1.2⟩

/-- Witness for claim C1 at the concrete document: the scheduler picks the
story `s1`, which indeed is neither completed nor blocked. -/
theorem c1_witness : w1Open.passes = false ∧ w1Open.blocked.getD false = false :=
  c1_scheduler_never_returns_completed_or_blocked w1Prd none w1Open 0 [] (by
    have hcand : candidateStories w1Prd none = [w1Open] := by decide
    simp [findNextStory, hcand, List.mergeSort_singleton, w1Open])

/-- Claim C2: with a non-empty candidate set, `findNextStory` returns the
candidate with the lowest priority rank (critical 0 < high 1 < medium 2 <
low 3), and every candidate appearing earlier in source order has a strictly
greater rank — so among equal priorities the first one in list order wins
(the sort is stable). -/
theorem c2_scheduler_lowest_rank_stable
    (prd : PrdDocument) (archive : Option PrdDocument)
    (h : candidateStories prd archive ≠ []) :
    ∃ s l₁ l₂,
      findNextStory prd archive =
        .available s (s.attempts.getD []).length (s.attempts.getD []) ∧
      candidateStories prd archive = l₁ ++ s :: l₂ ∧
      (∀ b ∈ l₁, PRIORITY_ORDER s.priority < PRIORITY_ORDER b.priority) ∧
      (∀ c ∈ candidateStories prd archive,
        PRIORITY_ORDER s.priority ≤ PRIORITY_ORDER c.priority) := by
  obtain ⟨x, l₁, l₂, hhead, hsplit, hstrict, hmin⟩ := mergeSort_storyLE_head _ h
  refine ⟨x, l₁, l₂, ?_, hsplit, hstrict, hmin⟩
  cases hm : (candidateStories prd archive).mergeSort storyLE with
  | nil => rw [hm] at hhead; simp at hhead
  | cons st rest =>
    rw [hm] at hhead
    simp only [List.head?_cons, Option.some.injEq] at hhead
    subst hhead
    simp [findNextStory, hm]

/-- Witness for claim C2 at the concrete document with candidate priorities
{medium, critical, critical}. -/
theorem c2_witness :
    ∃ s l₁ l₂,
      findNextStory w2Prd none =
        .available s (s.attempts.getD []).length (s.attempts.getD []) ∧
      candidateStories w2Prd none = l₁ ++ s :: l₂ ∧
      (∀ b ∈ l₁, PRIORITY_ORDER s.priority < PRIORITY_ORDER b.priority) ∧
      (∀ c ∈ candidateStories w2Prd none,
        PRIORITY_ORDER s.priority ≤ PRIORITY_ORDER c.priority) :=
  c2_scheduler_lowest_rank_stable w2Prd none (by decide)

/-- Two pointwise equal predicates give equal `all` results. -/
theorem list_all_congr {α : Type} (l : List α) (f g : α → Bool)
    (h : ∀ x ∈ l, f x = g x) : l.all f = l.all g := by
  induction l with
  | nil => rfl
  | cons a t ih =>
    simp only [List.all_cons, h a (by simp)]
    rw [ih (fun x hx => h x (by simp [hx]))]

/-- When story ids are unique across the active and archive collections, the
active-first dependency lookup of the source agrees, per dependency id, with
the spec's flat search over the union of both collections. -/
theorem depSatisfied_eq_spec (prd : PrdDocument) (archive : Option PrdDocument)
    (hnd : ((prd.stories ++ archiveStories archive).map Story.id).Nodup) (depId : String) :
    depSatisfied prd archive depId =
      (prd.stories ++ archiveStories archive).any (fun s => s.id == depId && s.passes) := by
  have hinj := List.inj_on_of_nodup_map hnd
  cases hfa : findStoryById prd depId with
  | some d =>
    have hdmem : d ∈ prd.stories := List.mem_of_find?_eq_some hfa
    have hdid : d.id = depId := by
      have := List.find?_some hfa
      simpa using this
    rw [depSatisfied, hfa]
    cases hdp : d.passes with
    | true =>
      have hany : (prd.stories ++ archiveStories archive).any
          (fun s => s.id == depId && s.passes) = true :=
        List.any_eq_true.mpr ⟨d, List.mem_append_left _ hdmem, by simp [hdid, hdp]⟩
      rw [hany]
      exact hdp
    | false =>
      have hany : (prd.stories ++ archiveStories archive).any
          (fun s => s.id == depId && s.passes) = false := by
        rw [List.any_eq_false]
        intro s hs
        simp only [Bool.and_eq_true, beq_iff_eq, not_and]
        intro hid hp
        have hsd : s = d := hinj hs (List.mem_append_left _ hdmem) (by rw [hid, hdid])
        rw [hsd] at hp
        rw [hp] at hdp
        exact Bool.noConfusion hdp
      rw [hany]
      exact hdp
  | none =>
    have hnone : ∀ s ∈ prd.stories, ¬ s.id = depId := by
      intro s hs
      have := List.find?_eq_none.mp hfa s hs
      simpa using this
    rw [depSatisfied, hfa]
    cases archive with
    | none =>
      simp only [isStoryInArchive, archiveStories, List.append_nil]
      have hany : prd.stories.any (fun s => s.id == depId && s.passes) = false := by
        rw [List.any_eq_false]
        intro s hs
        simp only [Bool.and_eq_true, beq_iff_eq, not_and]
        intro hid
        exact absurd hid (hnone s hs)
      rw [hany]
    | some a =>
      simp only [isStoryInArchive, archiveStories]
      cases hfb : findStoryById a depId with
      | some s0 =>
        have hs0mem : s0 ∈ a.stories := List.mem_of_find?_eq_some hfb
        have hs0id : s0.id = depId := by
          have := List.find?_some hfb
          simpa using this
        cases hs0p : s0.passes with
        | true =>
          have hany : (prd.stories ++ a.stories).any
              (fun s => s.id == depId && s.passes) = true :=
            List.any_eq_true.mpr ⟨s0, List.mem_append_right _ hs0mem, by simp [hs0id, hs0p]⟩
          rw [hany]
          exact hs0p
        | false =>
          have hany : (prd.stories ++ a.stories).any
              (fun s => s.id == depId && s.passes) = false := by
            rw [List.any_eq_false]
            intro s hs
            simp only [Bool.and_eq_true, beq_iff_eq, not_and]
            intro hid hp
            rcases List.mem_append.mp hs with hsl | hsr
            · exact absurd hid (hnone s hsl)
            · have hss : s = s0 := hinj (List.mem_append_right _ hsr)
                (List.mem_append_right _ hs0mem) (by rw [hid, hs0id])
              rw [hss] at hp
              rw [hp] at hs0p
              exact Bool.noConfusion hs0p
          rw [hany]
          exact hs0p
      | none =>
        have hnone2 : ∀ s ∈ a.stories, ¬ s.id = depId := by
          intro s hs
          have := List.find?_eq_none.mp hfb s hs
          simpa using this
        have hany : (prd.stories ++ a.stories).any
            (fun s => s.id == depId && s.passes) = false := by
          rw [List.any_eq_false]
          intro s hs
          simp only [Bool.and_eq_true, beq_iff_eq, not_and]
          intro hid
          rcases List.mem_append.mp hs with hsl | hsr
          · exact absurd hid (hnone s hsl)
          · exact absurd hid (hnone2 s hsr)
        rw [hany]

/-- Counterexample to claim C3 as stated: when the dependency id `d` names
an incomplete story in active and a completed story in archive, the code
reports unsatisfied although a story with that id and a true completion flag
is present in the union of the two collections — the claimed biconditional
fails for this pair of loaded collections. -/
theorem c3_counterexample :
    areDependenciesSatisfied w3Story w3Prd (some w3Archive) = false ∧
    specDependenciesSatisfied w3Story w3Prd (some w3Archive) = true := by decide

/-- Claim C3 as amended: provided story ids are unique across the union of
the loaded active and archive collections, dependency resolution returns
satisfied iff every dependency id names a story, present in active or
archive, whose completion flag is true; the empty dependency set is
trivially satisfied, and an id found nowhere yields unsatisfied as a normal
boolean outcome, never an error. -/
theorem c3_dependency_resolution_amended
    (story : Story) (prd : PrdDocument) (archive : Option PrdDocument)
    (hnd : ((prd.stories ++ archiveStories archive).map Story.id).Nodup) :
    (areDependenciesSatisfied story prd archive =
      specDependenciesSatisfied story prd archive) ∧
    (story.dependencies = [] → areDependenciesSatisfied story prd archive = true) ∧
    (∀ depId ∈ story.dependencies,
      (∀ s ∈ prd.stories ++ archiveStories archive, ¬ s.id = depId) →
      areDependenciesSatisfied story prd archive = false) := by
  have hmain : areDependenciesSatisfied story prd archive =
      specDependenciesSatisfied story prd archive := by
    rw [areDependenciesSatisfied, specDependenciesSatisfied]
    exact list_all_congr _ _ _ (fun depId _ => depSatisfied_eq_spec prd archive hnd depId)
  refine ⟨hmain, ?_, ?_⟩
  · intro h
    rw [areDependenciesSatisfied, h]
    rfl
  · intro depId hdep hmiss
    rw [hmain]
    cases hv : specDependenciesSatisfied story prd archive with
    | false => rfl
    | true =>
      have := List.all_eq_true.mp hv depId hdep
      obtain ⟨s, hsmem, hsp⟩ := List.any_eq_true.mp this
      simp only [Bool.and_eq_true, beq_iff_eq] at hsp
      exact absurd hsp.1 (hmiss s hsmem)

/-- Witness for the amended claim C3 at concrete collections with unique
ids: a dependency completed only in the archive is satisfied. -/
theorem c3_witness :
    areDependenciesSatisfied w3Story { stories := [w3Story] } (some w3Archive) =
      specDependenciesSatisfied w3Story { stories := [w3Story] } (some w3Archive) ∧
    areDependenciesSatisfied w3Story { stories := [w3Story] } (some w3Archive) = true := by
  have h := c3_dependency_resolution_amended w3Story { stories := [w3Story] }
    (some w3Archive) (by decide)
  exact ⟨h.1, by decide⟩

/-- Erasing the index found for a target id removes every story with that
id, provided ids are unique in the list. -/
theorem eraseIdx_no_match (targetId : String) :
    ∀ (l : List Story) (i : Nat), (l.map Story.id).Nodup →
      listFindIndex (fun s => s.id == targetId) l = some i →
      ∀ x ∈ l.eraseIdx i, ¬ x.id = targetId := by
  intro l
  induction l with
  | nil => intro i _ h; simp [listFindIndex] at h
  | cons a t ih =>
    intro i hnd h
    rw [List.map_cons, List.nodup_cons] at hnd
    by_cases hp : a.id == targetId
    · simp [listFindIndex, hp] at h
      subst h
      rw [List.eraseIdx_cons_zero]
      intro x hx hcontra
      have haid : a.id = targetId := by simpa using hp
      exact hnd.1 (by
        rw [haid, ← hcontra]
        exact List.mem_map_of_mem Story.id hx)
    · simp [listFindIndex, hp, Option.map_eq_some'] at h
      obtain ⟨i', hi', rfl⟩ := h
      rw [List.eraseIdx_cons_succ]
      intro x hx
      rcases List.mem_cons.mp hx with rfl | hxt
      · simpa using hp
      · exact ih i' hnd.2 hi' x hxt

/-- Claim C4: when the story id is present in the active collection and an
archive workflow is configured, `markStoryComplete` succeeds through the
archive path; afterwards a story with that id sits in the archive with
`passes = true` and `completedAt` set, no story with that id remains in the
active collection, and a subsequent `findNextStory` on the new active
collection, against any archive, never returns that id. -/
theorem c4_complete_and_archive_postconditions
    (now : String) (prd : PrdDocument) (archiveDoc : Option PrdDocument)
    (cfg : ArchiveConfig) (storyId apath : String) (i : Nat)
    (hfind : findStoryIndexById prd storyId = some i)
    (harch : resolveArchiveFile cfg = some apath)
    (hnd : (prd.stories.map Story.id).Nodup) :
    ∃ active' archive' writes msg,
      markStoryComplete now prd archiveDoc cfg storyId =
        .ok (.archived active' archive' writes msg) ∧
      (∃ s ∈ archive'.stories, s.id = storyId ∧ s.passes = true ∧ s.completedAt = some now) ∧
      (∀ s ∈ active'.stories, ¬ s.id = storyId) ∧
      (∀ (arch₂ : Option PrdDocument) (s : Story) (n : Nat) (atts : List String),
        findNextStory active' arch₂ = .available s n atts → ¬ s.id = storyId) := by
  obtain ⟨x, hget, hpx, _⟩ := listFindIndex_spec _ _ _ hfind
  have hxid : x.id = storyId := by simpa using hpx
  have hget2 : prd.stories[i]? = some x := by
    rw [← List.get?_eq_getElem?]
    exact hget
  have hrun : markStoryComplete now prd archiveDoc cfg storyId =
      .ok (moveStoryToArchive now prd archiveDoc i x storyId) := by
    simp [markStoryComplete, hfind, hget2, harch]
  have hactive : ∀ s ∈ prd.stories.eraseIdx i, ¬ s.id = storyId :=
    fun s hs => eraseIdx_no_match storyId prd.stories i hnd hfind s hs
  have hnext : ∀ (arch₂ : Option PrdDocument) (s : Story) (n : Nat) (atts : List String),
      findNextStory { prd with stories := prd.stories.eraseIdx i } arch₂ =
        .available s n atts → ¬ s.id = storyId := by
    intro arch₂ s n atts hav
    have hmem := findNextStory_available_mem hav
    simp only [candidateStories, List.mem_filter] at hmem
    exact hactive s hmem.1
  cases archiveDoc with
  | none =>
    refine ⟨{ prd with stories := prd.stories.eraseIdx i },
      { project := some (strOr prd.project "Archived Stories")
        description := some (strOr prd.description "Completed stories archive")
        stories := [{ x with passes := true, completedAt := some now }] },
      [(.active, { prd with stories := prd.stories.eraseIdx i }),
       (.archive,
        { project := some (strOr prd.project "Archived Stories")
          description := some (strOr prd.description "Completed stories archive")
          stories := [{ x with passes := true, completedAt := some now }] })],
      "Successfully moved story " ++ storyId ++ " to archive",
      by rw [hrun]; rfl,
      ⟨{ x with passes := true, completedAt := some now }, by simp, hxid, rfl, rfl⟩,
      hactive, hnext⟩
  | some a =>
    refine ⟨{ prd with stories := prd.stories.eraseIdx i },
      { a with stories := a.stories ++ [{ x with passes := true, completedAt := some now }] },
      [(.active, { prd with stories := prd.stories.eraseIdx i }),
       (.archive,
        { a with stories := a.stories ++ [{ x with passes := true, completedAt := some now }] })],
      "Successfully moved story " ++ storyId ++ " to archive",
      by rw [hrun]; rfl,
      ⟨{ x with passes := true, completedAt := some now }, by simp, hxid, rfl, rfl⟩,
      hactive, hnext⟩

/-- Witness for claim C4 at the concrete one-story document. -/
theorem c4_witness :
    ∃ active' archive' writes msg,
      markStoryComplete "2026-01-01T00:00:00.000Z" lcActive none lcCfg "s1" =
        .ok (.archived active' archive' writes msg) ∧
      (∃ s ∈ archive'.stories, s.id = "s1" ∧ s.passes = true ∧
        s.completedAt = some "2026-01-01T00:00:00.000Z") ∧
      (∀ s ∈ active'.stories, ¬ s.id = "s1") ∧
      (∀ (arch₂ : Option PrdDocument) (s : Story) (n : Nat) (atts : List String),
        findNextStory active' arch₂ = .available s n atts → ¬ s.id = "s1") :=
  c4_complete_and_archive_postconditions "2026-01-01T00:00:00.000Z" lcActive none
    lcCfg "s1" "archive.prd.json" 0 (by decide) (by decide) (by decide)

/-- Claim C5 evidence: the concrete archived run issues its two writes with
the ACTIVE file first (story removed) and the archive file second (story
added) — `mark-complete.ts` lines 127-128 — so the persisted state
reachable when the operation stops after the first write holds the story in
neither partition: the active file is empty and the archive file still does
not exist.  This is the opposite of the claimed archive-first ordering. -/
theorem c5_write_order_loses_story :
    lcWrites.map Prod.fst = [.active, .archive] ∧
    (applyWrites { activeFile := lcActive, archiveFile := none }
      (lcWrites.take 1)).activeFile.stories = [] ∧
    (applyWrites { activeFile := lcActive, archiveFile := none }
      (lcWrites.take 1)).archiveFile = none := by
  refine ⟨rfl, rfl, rfl⟩

/-- Claim C8 evidence: after the concrete archived run has succeeded — the
story sits completed in the archive and no longer exists in active —
re-running `markStoryComplete` with the same id fails with the not-found
error instead of succeeding as a no-op. -/
theorem c8_rerun_errors_not_noop :
    (∀ s ∈ lcActiveAfter.stories, ¬ s.id = "s1") ∧
    (∃ s ∈ lcArchiveAfter.stories, s.id = "s1" ∧ s.passes = true) ∧
    markStoryComplete "2026-01-02T00:00:00.000Z" lcActiveAfter (some lcArchiveAfter)
      lcCfg "s1" = .error (.notFound "s1") := by
  refine ⟨by decide, by decide, rfl⟩

/-- Counterexample to claim C6 as stated: on the claimed scenario (3
stories, 2 completed, 1 blocked and not completed) the code returns
`remainingStories = 0`, not the claimed 1, because the source computes
remaining as total minus completed minus blocked. -/
theorem c6_counterexample :
    (checkIsComplete w6Prd).complete = false ∧
    (checkIsComplete w6Prd).totalStories = 3 ∧
    (checkIsComplete w6Prd).completedStories = 2 ∧
    (checkIsComplete w6Prd).blockedStories = 1 ∧
    ¬ (checkIsComplete w6Prd).remainingStories = 1 := by
  refine ⟨rfl, rfl, rfl, rfl, by decide⟩

/-- Claim C6 as amended: `checkIsComplete` reports complete exactly when
every active story has `passes = true`, together with the counts; blocked
incomplete stories are excluded from `remainingStories` (remaining = total -
completed - blocked), so the 3-story scenario yields remaining 0. -/
theorem c6_is_complete_amended (prd : PrdDocument) :
    ((checkIsComplete prd).complete = true ↔ ∀ s ∈ prd.stories, s.passes = true) ∧
    (checkIsComplete prd).totalStories = prd.stories.length ∧
    (checkIsComplete prd).completedStories =
      (prd.stories.filter (fun s => s.passes == true)).length ∧
    (checkIsComplete prd).blockedStories =
      (prd.stories.filter (fun s => s.blocked.getD false == true)).length ∧
    (checkIsComplete prd).remainingStories =
      ((checkIsComplete prd).totalStories : Int) - (checkIsComplete prd).completedStories -
        (checkIsComplete prd).blockedStories ∧
    (checkIsComplete w6Prd).complete = false ∧
    (checkIsComplete w6Prd).totalStories = 3 ∧
    (checkIsComplete w6Prd).completedStories = 2 ∧
    (checkIsComplete w6Prd).blockedStories = 1 ∧
    (checkIsComplete w6Prd).remainingStories = 0 := by
  refine ⟨?_, rfl, rfl, rfl, rfl, rfl, rfl, rfl, rfl, by decide⟩
  simp [checkIsComplete, List.all_eq_true]

/-- Witness for the amended claim C6: on the concrete scenario document the
biconditional reports not complete, since story `c` is incomplete. -/
theorem c6_witness : (checkIsComplete w6Prd).complete = false := by
  have h := (c6_is_complete_amended w6Prd).1
  cases hv : (checkIsComplete w6Prd).complete with
  | false => rfl
  | true =>
    have hall := h.mp hv
    have hc := hall w6C (by simp [w6Prd])
    simp [w6C] at hc

/-- Claim C7: every run of the write sequence either succeeds — the target
then holds exactly the new content and no temp artifact remains — or raises
the persist error with the target still holding the previous content and
the temp artifact removed; and every intermediate file-system state holds
either the old or the new content at the target, never anything else
(single-operation rename). -/
theorem c7_write_sequence_atomic (fs : FsState) (content : String)
    (fail : Option WriteFailure) :
    ((writePrdFileFs fs content fail).2.isSome = true →
      (writePrdFileFs fs content fail).1.target = fs.target ∧
      (writePrdFileFs fs content fail).1.temp = none ∧
      (writePrdFileFs fs content fail).2 = some "Failed to write PRD file") ∧
    ((writePrdFileFs fs content fail).2 = none →
      (writePrdFileFs fs content fail).1.target = some content ∧
      (writePrdFileFs fs content fail).1.temp = none) ∧
    (∀ st ∈ fs :: writeStates fs content fail,
      st.target = fs.target ∨ st.target = some content) := by
  cases fail with
  | none =>
    simp [writePrdFileFs, writeStates, writeTempStep, renameStep, cleanupTemp]
  | some wf =>
    cases wf <;>
      simp [writePrdFileFs, writeStates, writeTempStep, renameStep, cleanupTemp]

/-- Witness for claim C7: a rename failure over a target holding old
content leaves the old content in place and removes the temp artifact. -/
theorem c7_witness :
    (writePrdFileFs { target := some "old", temp := none } "new"
      (some .renameFail)).1.target = some "old" ∧
    (writePrdFileFs { target := some "old", temp := none } "new"
      (some .renameFail)).1.temp = none := by
  have h := (c7_write_sequence_atomic { target := some "old", temp := none } "new"
    (some .renameFail)).1 (by decide)
  exact ⟨h.1, h.2.1⟩

/-- Claim C9: with no explicit archive file, no archive environment
variable and no `archive.prd.json` on disk, `markStoryComplete` takes the
in-place workflow: the story keeps its place in the active collection, with
`passes` set and `completedAt` stamped, and nothing is moved anywhere. -/
theorem c9_no_archive_marks_in_place
    (now : String) (prd : PrdDocument) (archiveDoc : Option PrdDocument)
    (cfg : ArchiveConfig) (storyId : String) (i : Nat)
    (h1 : cfg.explicitArchive = none) (h2 : cfg.envArchive = none)
    (h3 : cfg.defaultArchiveExists = false)
    (hfind : findStoryIndexById prd storyId = some i) :
    ∃ story,
      prd.stories.get? i = some story ∧
      markStoryComplete now prd archiveDoc cfg storyId =
        .ok (.inPlace { prd with stories := prd.stories.set i { story with passes := true, completedAt := some now } } ("Successfully marked story " ++ storyId ++ " as complete in place")) ∧
      { story with passes := true, completedAt := some now } ∈
        prd.stories.set i { story with passes := true, completedAt := some now } ∧
      (prd.stories.set i { story with passes := true, completedAt := some now }).length =
        prd.stories.length ∧
      story.id = storyId := by
  obtain ⟨x, hget, hpx, _⟩ := listFindIndex_spec _ _ _ hfind
  have hget2 : prd.stories[i]? = some x := by
    rw [← List.get?_eq_getElem?]
    exact hget
  have hres : resolveArchiveFile cfg = none := by
    simp [resolveArchiveFile, h1, h2, h3]
  have hlen : i < prd.stories.length := by
    rcases List.get?_eq_some.mp hget with ⟨h, _⟩
    exact h
  refine ⟨x, hget, ?_, ?_, List.length_set .., by simpa using hpx⟩
  · simp [markStoryComplete, hfind, hget2, hres, markStoryInPlace]
  · exact List.mem_set prd.stories i hlen _

/-- Witness for claim C9 at the concrete one-story document with the empty
archive configuration. -/
theorem c9_witness :
    ∃ story,
      lcActive.stories.get? 0 = some story ∧
      markStoryComplete "t3" lcActive none {} "s1" =
        .ok (.inPlace { lcActive with stories := lcActive.stories.set 0 { story with passes := true, completedAt := some "t3" } } ("Successfully marked story " ++ "s1" ++ " as complete in place")) ∧
      { story with passes := true, completedAt := some "t3" } ∈
        lcActive.stories.set 0 { story with passes := true, completedAt := some "t3" } ∧
      (lcActive.stories.set 0 { story with passes := true, completedAt := some "t3" }).length =
        lcActive.stories.length ∧
      story.id = "s1" :=
  c9_no_archive_marks_in_place "t3" lcActive none {} "s1" 0 rfl rfl rfl (by decide)

/-- Claim C10: `recordStoryFailure` and `blockStory` fail with the not-found
error exactly when the id is absent from the active collection; whenever the
id is present — even on a story already completed or blocked — both succeed,
the former appending the reference to the story's attempts and reporting the
new count, the latter setting `blocked` and refreshing `blockedAt`. -/
theorem c10_record_failure_and_block_lookup
    (prd : PrdDocument) (now storyId ref : String) :
    ((recordStoryFailure prd storyId ref).isOk = true ↔ ∃ s ∈ prd.stories, s.id = storyId) ∧
    ((blockStory now prd storyId).isOk = true ↔ ∃ s ∈ prd.stories, s.id = storyId) ∧
    ((¬ ∃ s ∈ prd.stories, s.id = storyId) →
      recordStoryFailure prd storyId ref = .error (.notFound storyId) ∧
      blockStory now prd storyId = .error (.notFound storyId)) ∧
    (∀ i story, findStoryIndexById prd storyId = some i →
      prd.stories.get? i = some story →
      recordStoryFailure prd storyId ref =
        .ok ({ prd with stories := prd.stories.set i { story with attempts := some (story.attempts.getD [] ++ [ref]) } },
          (story.attempts.getD [] ++ [ref]).length) ∧
      blockStory now prd storyId =
        .ok { prd with stories := prd.stories.set i { story with blocked := some true, blockedAt := some now } }) := by
  cases hfi : findStoryIndexById prd storyId with
  | none =>
    have hall := (listFindIndex_eq_none (fun s => s.id == storyId) prd.stories).mp hfi
    have hnoex : ¬ ∃ s ∈ prd.stories, s.id = storyId := by
      rintro ⟨s, hs, hid⟩
      have hfalse := hall s hs
      rw [hid] at hfalse
      simp at hfalse
    have hrec : recordStoryFailure prd storyId ref = .error (.notFound storyId) := by
      simp [recordStoryFailure, hfi]
    have hblk : blockStory now prd storyId = .error (.notFound storyId) := by
      simp [blockStory, hfi]
    refine ⟨?_, ?_, fun _ => ⟨hrec, hblk⟩, ?_⟩
    · rw [hrec]
      exact iff_of_false (fun h => Bool.noConfusion h) hnoex
    · rw [hblk]
      exact iff_of_false (fun h => Bool.noConfusion h) hnoex
    · intro i story hfi' _
      exact Option.noConfusion hfi'
  | some i =>
    obtain ⟨x, hget, hpx, _⟩ := listFindIndex_spec _ _ _ hfi
    have hget2 : prd.stories[i]? = some x := by
      rw [← List.get?_eq_getElem?]
      exact hget
    have hex : ∃ s ∈ prd.stories, s.id = storyId :=
      ⟨x, List.get?_mem hget, by simpa using hpx⟩
    have hrec : recordStoryFailure prd storyId ref =
        .ok ({ prd with stories := prd.stories.set i { x with attempts := some (x.attempts.getD [] ++ [ref]) } },
          (x.attempts.getD [] ++ [ref]).length) := by
      simp [recordStoryFailure, hfi, hget2]
    have hblk : blockStory now prd storyId =
        .ok { prd with stories := prd.stories.set i { x with blocked := some true, blockedAt := some now } } := by
      simp [blockStory, hfi, hget2]
    refine ⟨?_, ?_, fun hno => absurd hex hno, ?_⟩
    · rw [hrec]
      exact iff_of_true rfl hex
    · rw [hblk]
      exact iff_of_true rfl hex
    · intro i' story hfi' hget'
      have hii : i = i' := by simpa using hfi'
      subst hii
      rw [hget] at hget'
      have hx : x = story := by simpa using hget'
      subst hx
      exact ⟨hrec, hblk⟩

/-- Witness for claim C10: on a story that is already completed and already
blocked, both operations still succeed, appending the new attempt reference
and refreshing the blocked timestamp. -/
theorem c10_witness :
    recordStoryFailure w10Prd "s9" "a2" =
      .ok ({ w10Prd with stories := w10Prd.stories.set 0 { w10Story with attempts := some (w10Story.attempts.getD [] ++ ["a2"]) } },
        (w10Story.attempts.getD [] ++ ["a2"]).length) ∧
    blockStory "t4" w10Prd "s9" =
      .ok { w10Prd with stories := w10Prd.stories.set 0 { w10Story with blocked := some true, blockedAt := some "t4" } } :=
  (c10_record_failure_and_block_lookup w10Prd "t4" "s9" "a2").2.2.2 0 w10Story rfl rfl

end Ralph
